import Mathlib

/-!
Verification development for the `aiogram_dialog` conversation-flow library.

The development shallowly embeds the two source modules:

* `aiogram_dialog/dialog.py` — the `Dialog` orchestrator (state resolution,
  capability checks, event handlers, step switching, finish sequences);
* `new/dialog/kbd.py` — the composable inline-keyboard sublibrary
  (`Keyboard` base node, `Button`, `Uri`, `Group`).

Modules that `dialog.py` imports but whose sources are not part of the
repository snapshot (`step.py`, `data.py`, `texts.py`, and the keyboard
sublibrary's `when.py`/`text.py`) are modelled from the specification; each
such definition carries a doc comment saying so.

Python-level behaviours that matter to the embedded code are made explicit:
truthiness of strings/`None`/message ids, `list.index` raising `ValueError`,
list indexing raising `IndexError` (with negative indices counting from the
end), and `dict` lookups raising `KeyError`.  Network sends/edits and
lifecycle hooks are recorded as an effect trace; outbound calls are assumed to
succeed (the one tolerated failure, `MessageNotModified`, is swallowed by the
source at every site that can see it, so both outcomes coincide in the model).
-/

/-- Python exception kinds that the embedded code can raise. -/
inductive PyErr where
  /-- `StateBrokenError`, carrying the offending state identifier. -/
  | stateBroken (s : Option String)
  /-- `KeyError` from a `dict[...]` lookup. -/
  | keyError
  /-- `ValueError` from `list.index` on a missing element. -/
  | valueError
  /-- `IndexError` from out-of-range list indexing. -/
  | indexError
deriving DecidableEq, Repr

/-- A chat state identifier: a Python `str` or `None`. -/
abbrev StateId := Option String

/-- Python truthiness of a state identifier: `None` and `""` are falsy. -/
def pyTruthyState : StateId → Bool
  | none => false
  | some s => !s.isEmpty

/-- Python truthiness of an optional message id: `None` and `0` are falsy. -/
def pyTruthyMsg : Option Nat → Bool
  | none => false
  | some n => n != 0

/-- Python `list.index`: position of the first occurrence, `ValueError` if absent. -/
def pyIndex {α : Type} [DecidableEq α] : List α → α → Except PyErr Nat
  | [], _ => .error .valueError
  | x :: xs, a => if x = a then .ok 0 else (pyIndex xs a).map (· + 1)

/-- Python list indexing with an `Int` index: negative indices count from the
end, out-of-range raises `IndexError`. -/
def pyListGet {α : Type} (l : List α) (i : Int) : Except PyErr α :=
  let j : Int := if i < 0 then (l.length : Int) + i else i
  if h : 0 ≤ j ∧ j.toNat < l.length then .ok (l.get ⟨j.toNat, h.2⟩)
  else .error .indexError

/-- Python `dict.get` on an insertion-ordered association list. -/
def pyDictGet {α β : Type} [DecidableEq α] : List (α × β) → α → Option β
  | [], _ => none
  | (k, v) :: rest, key => if k = key then some v else pyDictGet rest key

/-- Python `dict[key]`: like `pyDictGet` but raising `KeyError` when absent. -/
def pyDictItem {α β : Type} [DecidableEq α] (l : List (α × β)) (key : α) :
    Except PyErr β :=
  match pyDictGet l key with
  | some v => .ok v
  | none => .error .keyError

/-- A field-keyed data bag (Python `dict`, insertion-ordered). -/
abbrev Bag (V : Type) := List (String × V)

/-- Python `dict` assignment: update in place if the key exists, else append. -/
def bagSet {V : Type} : Bag V → String → V → Bag V
  | [], k, v => [(k, v)]
  | (k', v') :: rest, k, v =>
    if k' = k then (k, v) :: rest else (k', v') :: bagSet rest k v

/-- Modelled from the spec: `DialogData` item deletion (`data.py` is not in the
snapshot).  §4.4 lists "item set/get/delete by field name on the in-memory
bag"; deletion of the named field is modelled as removing its entry. -/
def bagDel {V : Type} : Bag V → String → Bag V
  | [], _ => []
  | (k', v') :: rest, k => if k' = k then rest else (k', v') :: bagDel rest k

/-! ## The keyboard composition sublibrary (`new/dialog/kbd.py`) -/

/-- A rendered inline button: a `(label, callback-identifier)` pair from
`Button._render_kbd` or a `(label, uri)` pair from `Uri._render_kbd`. -/
inductive RBtn where
  | btn (text callback_data : String)
  | link (text uriT : String)
deriving DecidableEq, Repr

/-- Modelled from the spec: the visibility gate (`Whenable`, `when.py` is not
in the snapshot).  §4.7: it "evaluates to true unconditionally by default, or
against a named boolean field in `data`, or via a supplied custom predicate" —
both data-dependent forms evaluate the data to a boolean. -/
def is_when {D : Type} (w : Option (D → Bool)) (dta : D) : Bool :=
  match w with
  | none => true
  | some p => p dta

/-- The keyboard node tree of `kbd.py`: `Button`, `Uri` and `Group`.  `Text`
renderers (`text.py`, not in the snapshot) are modelled from the spec as
functions from session data to strings.  `width` is a Python `int`. -/
inductive Keyboard (D : Type) where
  | button (whenC : Option (D → Bool)) (text callback_data : D → String)
  | uri (whenC : Option (D → Bool)) (text uriT : D → String)
  | group (whenC : Option (D → Bool)) (buttons : List (Keyboard D))
      (keep_rows : Bool) (width : Int)

/-- The visibility gate attached to a keyboard node. -/
def Keyboard.whenCond {D : Type} : Keyboard D → Option (D → Bool)
  | .button w _ _ => w
  | .uri w _ _ => w
  | .group w _ _ _ => w

/-- The accumulator loop of `Group._wrap_kbd`: `row` collects buttons and is
flushed to `res` whenever `len(row) >= self.width`. -/
def wrap_loop (width : Int) :
    List RBtn → List (List RBtn) × List RBtn → List (List RBtn) × List RBtn
  | [], acc => acc
  | b :: bs, (res, row) =>
    let row' := row ++ [b]
    if width ≤ (row'.length : Int) then wrap_loop width bs (res ++ [row'], [])
    else wrap_loop width bs (res, row')

/-- `Group._wrap_kbd`: re-wrap a single row into rows of `width`, appending
the trailing partial row if nonempty. -/
def wrap_kbd (width : Int) (kbd : List RBtn) : List (List RBtn) :=
  let acc := wrap_loop width kbd ([], [])
  if acc.2 = [] then acc.1 else acc.1 ++ [acc.2]

mutual

/-- `Keyboard.render_kbd`: empty when the visibility gate is false, else the
node-specific `_render_kbd`.  For `Group`, children are folded left as in
`Group._render_kbd`; with `keep_rows` false and truthy `width`, the first
accumulated row is re-wrapped (`kbd[0]` raising `IndexError` when empty). -/
def render_kbd {D : Type} (dta : D) : Keyboard D → Except PyErr (List (List RBtn))
  | .button w t c =>
    if is_when w dta then .ok [[.btn (t dta) (c dta)]] else .ok []
  | .uri w t u =>
    if is_when w dta then .ok [[.link (t dta) (u dta)]] else .ok []
  | .group w bs keep width =>
    if is_when w dta then
      match render_children dta keep bs [] with
      | .error e => .error e
      | .ok kbd =>
        if !keep && width != 0 then
          match kbd with
          | [] => .error .indexError
          | r :: _ => .ok (wrap_kbd width r)
        else .ok kbd
    else .ok []

/-- The `for b in self.buttons` loop of `Group._render_kbd`: each child's
render is appended whole when `keep_rows` is set or nothing is accumulated
yet, otherwise its buttons are chained into the first accumulated row. -/
def render_children {D : Type} (dta : D) (keep : Bool) :
    List (Keyboard D) → List (List RBtn) → Except PyErr (List (List RBtn))
  | [], acc => .ok acc
  | b :: rest, acc =>
    match render_kbd dta b with
    | .error e => .error e
    | .ok bk =>
      let acc' :=
        if keep || acc.isEmpty then acc ++ bk
        else
          match acc with
          | [] => acc ++ bk
          | r0 :: tl => (r0 ++ bk.flatten) :: tl
      render_children dta keep rest acc'

end

/-- Render every child of a group in order, failing on the first failure.
Auxiliary vocabulary for stating theorems about `render_children`. -/
def renderAll {D : Type} (dta : D) : List (Keyboard D) →
    Except PyErr (List (List (List RBtn)))
  | [] => .ok []
  | b :: bs =>
    match render_kbd dta b with
    | .error e => .error e
    | .ok r =>
      match renderAll dta bs with
      | .error e => .error e
      | .ok rs => .ok (r :: rs)

deriving instance DecidableEq for Except

/-! ## The dialog orchestrator (`aiogram_dialog/dialog.py`) -/

/-- A button in the orchestrator-level keyboard: `(text, callback_data)` as
built by `get_kbd`'s navigation/finish rows and by the step's own keyboard. -/
abbrev BtnPair := String × String

/-- An inline keyboard as an ordered list of button rows. -/
abbrev Markup := List (List BtnPair)

/-- Modelled from the spec: `DialogTexts` (`texts.py` is not in the
snapshot).  §4.5: four caption strings with defaults. -/
structure DialogTexts where
  back : String := "Back"
  skip : String := "Skip"
  cancel : String := "Cancel"
  done : String := "Done"
deriving DecidableEq, Repr

/-- The next-state directive handed to `Dialog.next`: a plain state string or
`None` (`py`), an aiogram `State` instance unwrapped via `.state`
(`stateObj`), a nested `Dialog` instance (`dialogRef`, kept opaque by an
identifier since the hand-off only starts the other dialog), or the
`NotImplemented` sentinel meaning "use the computed default". -/
inductive Directive where
  | py (s : StateId)
  | stateObj (s : StateId)
  | dialogRef (n : Nat)
  | notImpl
deriving DecidableEq, Repr

/-- Python `==` between a directive and the current state: only a plain
string/`None` value can equal a state identifier; `State`/`Dialog` instances
and `NotImplemented` compare unequal. -/
def dirEqState (d : Directive) (s : StateId) : Bool :=
  match d with
  | .py v => v = s
  | _ => false

/-- An inbound plain message: only its text is consulted by the orchestrator
(`message.text != new_text` in `switch_step`). -/
structure Msg where
  text : Option String
deriving DecidableEq, Repr

/-- An inbound callback query: its payload `data` and the text of the message
it is attached to (`c.message`). -/
structure Cb where
  data : String
  msgText : Option String
deriving DecidableEq, Repr

/-- Modelled from the spec: the `Step` contract (`step.py` is not in the
snapshot).  §4.3/§3: a field name, an explicit previous-state override or
"unset" (`none` models the `NotImplemented` sentinel), four narrowing
capability flags, text rendering over the data bag and an optional validation
error, step-specific keyboard rendering, and message/callback processing that
returns a produced value and a next-state directive or raises a validation
failure (`ValueError`, carried as its message string). -/
structure Step (V : Type) where
  fieldName : String
  back : Option StateId := none
  canBackF : Bool := true
  canCancelF : Bool := true
  canDoneF : Bool := true
  canSkipF : Bool := true
  render_text : Bag V → Option String → String
  render_kbd : Bag V → Markup := fun _ => []
  process_message : Msg → Bag V → Except String (V × Directive) :=
    fun _ _ => .error "not accepted"
  process_callback : Cb → Bag V → Except String (V × Directive) :=
    fun _ _ => .error "not accepted"

/-- The `Dialog` orchestrator state built by `Dialog.__init__`: the ordered
state-to-step mapping, the internal callback-identifier stem (the
`internal_callback_prefix` argument), the four dialog-level capability flags,
and the sizes of the three lifecycle callback lists (callbacks are modelled
by their registration index, since the orchestrator only invokes them in
order). -/
structure Dialog (V : Type) where
  steps : List (StateId × Step V)
  canCancelFlag : Bool := true
  canBackFlag : Bool := true
  canDoneFlag : Bool := false
  canSkipFlag : Bool := false
  icp : String := ""
  dialog_field : String := ""
  texts : DialogTexts := {}
  finished_cbs : Nat := 0
  done_cbs : Nat := 0
  cancel_cbs : Nat := 0

/-- `self.states = list(self.steps)`: the ordered state identifiers. -/
def Dialog.states {V : Type} (d : Dialog V) : List StateId :=
  d.steps.map Prod.fst

/-- `self.cancel_cd = internal_callback_prefix + "[cancel]"`. -/
def Dialog.cancel_cd {V : Type} (d : Dialog V) : String := d.icp ++ "[cancel]"

/-- `self.done_cd = internal_callback_prefix + "[done]"`. -/
def Dialog.done_cd {V : Type} (d : Dialog V) : String := d.icp ++ "[done]"

/-- `self.back_cd = internal_callback_prefix + "[back]"`. -/
def Dialog.back_cd {V : Type} (d : Dialog V) : String := d.icp ++ "[back]"

/-- `self.skip_cd = internal_callback_prefix + "[skip]"`. -/
def Dialog.skip_cd {V : Type} (d : Dialog V) : String := d.icp ++ "[skip]"

/-- `Dialog.can_cancel`: the dialog flag alone when no step, else the
conjunction with the step's capability. -/
def Dialog.can_cancel {V : Type} (d : Dialog V) : Option (Step V) → Bool
  | none => d.canCancelFlag
  | some st => d.canCancelFlag && st.canCancelF

/-- `Dialog.can_back`: `False` without a step; `False` when
`self.states.index(state) < 1` (`list.index` raising `ValueError` for an
unregistered state); else the dialog flag `and` the step's capability. -/
def Dialog.can_back {V : Type} (d : Dialog V) (state : StateId) :
    Option (Step V) → Except PyErr Bool
  | none => .ok false
  | some st =>
    match pyIndex d.states state with
    | .error e => .error e
    | .ok i => if i < 1 then .ok false else .ok (d.canBackFlag && st.canBackF)

/-- `Dialog.can_done`, same shape as `can_cancel`. -/
def Dialog.can_done {V : Type} (d : Dialog V) : Option (Step V) → Bool
  | none => d.canDoneFlag
  | some st => d.canDoneFlag && st.canDoneF

/-- `Dialog.can_skip`, same shape as `can_cancel`. -/
def Dialog.can_skip {V : Type} (d : Dialog V) : Option (Step V) → Bool
  | none => d.canSkipFlag
  | some st => d.canSkipFlag && st.canSkipF

/-- `Dialog.next_step`: the first state for a falsy current state, the
positional successor otherwise, with the `IndexError` of running off the end
caught and turned into `None`; `list.index` on a truthy unregistered state
raises `ValueError` (not caught). -/
def Dialog.next_step {V : Type} (d : Dialog V) (current_state : StateId) :
    Except PyErr StateId :=
  if !pyTruthyState current_state then
    match d.states with
    | [] => .error .indexError
    | s :: _ => .ok s
  else
    match pyIndex d.states current_state with
    | .error e => .error e
    | .ok i =>
      if h : i + 1 < d.states.length then .ok (d.states.get ⟨i + 1, h⟩)
      else .ok none

/-- `Dialog.get_kbd`: the step's own keyboard, then a navigation row
(back/skip) and a finish row (cancel/done), each appended only if nonempty. -/
def Dialog.get_kbd {V : Type} (d : Dialog V) (current_state : StateId)
    (current_step : Step V) (current_data : Bag V) : Except PyErr Markup :=
  let kbd := current_step.render_kbd current_data
  match d.can_back current_state (some current_step) with
  | .error e => .error e
  | .ok cb =>
    let steps_row : List BtnPair :=
      (if cb then [(d.texts.back, d.back_cd)] else []) ++
      (if d.can_skip (some current_step) then [(d.texts.skip, d.skip_cd)] else [])
    let kbd := kbd ++ (if steps_row = [] then [] else [steps_row])
    let finish_row : List BtnPair :=
      (if d.can_cancel (some current_step) then [(d.texts.cancel, d.cancel_cd)] else []) ++
      (if d.can_done (some current_step) then [(d.texts.done, d.done_cd)] else [])
    .ok (kbd ++ (if finish_row = [] then [] else [finish_row]))

/-- One recorded side effect of handling an event: an outbound network call,
a lifecycle hook, or a registered callback invocation (by index). -/
inductive Effect (V : Type) where
  /-- `bot.edit_message_text(chat_id, message_id, text)`. -/
  | editText (id : Nat) (text : String)
  /-- `bot.edit_message_reply_markup(chat_id, message_id, reply_markup)`. -/
  | editMarkup (id : Nat) (kbd : Markup)
  /-- `bot.edit_message_reply_markup(chat_id, message_id)` with no markup:
  clearing the displayed buttons. -/
  | clearMarkup (id : Nat)
  /-- `message.answer(text, reply_markup)`, returning message id `id`. -/
  | send (id : Nat) (text : String) (kbd : Markup)
  /-- `c.answer()` acknowledging a callback query. -/
  | answer
  | onNext
  | onBack
  | onDone (bag : Bag V)
  | doneCb (i : Nat) (bag : Bag V)
  | onCancel
  | cancelCb (i : Nat)
  | onFinish
  | finishedCb (i : Nat)
  /-- Hand-off to a nested dialog: `switch_dialog` ends by starting it. -/
  | startDialog (n : Nat)
deriving DecidableEq, Repr

/-- The persisted per-chat view between events: the chat's recorded FSM state
(written through immediately by `set_state`) and the committed `DialogData`
contents (message id and data bag, written only by `commit`), plus a counter
supplying fresh message ids for sends. -/
structure World (V : Type) where
  fsm : StateId
  store_msg : Option Nat
  store_bag : Bag V
  fresh : Nat
deriving DecidableEq, Repr

/-- The in-flight state while one event is handled: the world fields plus the
in-memory `DialogData` buffer (modelled from the spec, §4.4: mutations are
buffered and flushed by `commit`) and the trace of effects so far. -/
structure St (V : Type) where
  fsm : StateId
  store_msg : Option Nat
  store_bag : Bag V
  dd_msg : Option Nat
  dd_bag : Bag V
  fresh : Nat
  trace : List (Effect V)
deriving DecidableEq, Repr

/-- Record one effect. -/
def emitE {V : Type} (st : St V) (e : Effect V) : St V :=
  { st with trace := st.trace ++ [e] }

/-- Creating a `DialogData` at the start of an event: the buffered view is
loaded (read-through) from the committed store. -/
def St.load {V : Type} (w : World V) : St V :=
  { fsm := w.fsm, store_msg := w.store_msg, store_bag := w.store_bag,
    dd_msg := w.store_msg, dd_bag := w.store_bag, fresh := w.fresh, trace := [] }

/-- `DialogData.commit`: flush the buffered message id and bag to the store. -/
def St.commit {V : Type} (st : St V) : St V :=
  { st with store_msg := st.dd_msg, store_bag := st.dd_bag }

/-- The world left behind when the event's handling returns. -/
def St.unload {V : Type} (st : St V) : World V :=
  { fsm := st.fsm, store_msg := st.store_msg, store_bag := st.store_bag,
    fresh := st.fresh }

/-- `Dialog._do_finish`: clear the displayed message's buttons when one is
recorded (tolerating `MessageNotModified`), then `DialogData.reset`, which
per §4.4 clears the message id and the data bag. -/
def Dialog.do_finish {V : Type} (_d : Dialog V) (st : St V) : St V :=
  let st :=
    match st.dd_msg with
    | some id => if id ≠ 0 then emitE st (.clearMarkup id) else st
    | none => st
  { st with dd_msg := none, dd_bag := [] }

/-- `Dialog._notify_finish`: the on-finish hook, then every finished-callback
in registration order. -/
def Dialog.notify_finish {V : Type} (d : Dialog V) (st : St V) : St V :=
  let st := emitE st .onFinish
  (List.range d.finished_cbs).foldl (fun s i => emitE s (.finishedCb i)) st

/-- `Dialog.done`: capture the data bag, run `_do_finish`, then the on-done
hook and every done-callback (each receiving the captured pre-reset bag),
then `_notify_finish`. -/
def Dialog.done {V : Type} (d : Dialog V) (st : St V) : St V :=
  let dta := st.dd_bag
  let st := d.do_finish st
  let st := emitE st (.onDone dta)
  let st := (List.range d.done_cbs).foldl (fun s i => emitE s (.doneCb i dta)) st
  d.notify_finish st

/-- `Dialog.cancel`: `_do_finish`, the on-cancel hook and every
cancel-callback (no data bag passed), then `_notify_finish`. -/
def Dialog.cancel {V : Type} (d : Dialog V) (st : St V) : St V :=
  let st := d.do_finish st
  let st := emitE st .onCancel
  let st := (List.range d.cancel_cbs).foldl (fun s i => emitE s (.cancelCb i)) st
  d.notify_finish st

/-- `Dialog.switch_step`: render the next step's text over the buffered bag
(passing the validation error); when `edit` is set and a message is displayed,
edit its text (only if changed) and its markup in place; otherwise clear the
old message's buttons (if any), send a new message and record its id; finally
set the chat's FSM state to `next_state`. -/
def Dialog.switch_step {V : Type} (d : Dialog V) (msgText : Option String)
    (error : Option String) (next_state : StateId) (next_step : Step V)
    (edit : Bool) (st : St V) : St V × Option PyErr :=
  let oldmsg := st.dd_msg
  let dta := st.dd_bag
  let new_text := next_step.render_text dta error
  if edit && pyTruthyMsg oldmsg then
    match oldmsg with
    | some id =>
      let st := if msgText ≠ some new_text then emitE st (.editText id new_text) else st
      match d.get_kbd next_state next_step dta with
      | .error e => (st, some e)
      | .ok kbd =>
        let st := emitE st (.editMarkup id kbd)
        ({ st with fsm := next_state }, none)
    | none => (st, some .indexError)
  else
    let st :=
      match oldmsg with
      | some id => if id ≠ 0 then emitE st (.clearMarkup id) else st
      | none => st
    match d.get_kbd next_state next_step dta with
    | .error e => (st, some e)
    | .ok kbd =>
      let newId := st.fresh
      let st := emitE st (.send newId new_text kbd)
      let st := { st with fresh := st.fresh + 1, dd_msg := some newId }
      ({ st with fsm := next_state }, none)

/-- `Dialog.switch_dialog`: clear the current displayed message's buttons (if
any), then start the target dialog (opaque hand-off, recorded as an effect). -/
def Dialog.switch_dialog {V : Type} (_d : Dialog V) (n : Nat) (st : St V) : St V :=
  let st :=
    match st.dd_msg with
    | some id => if id ≠ 0 then emitE st (.clearMarkup id) else st
    | none => st
  emitE st (.startDialog n)

/-- The tail of `Dialog.next` once the directive has been resolved to a plain
state value: falsy means completion via `done`, otherwise a step switch. -/
def Dialog.nextResolved {V : Type} (d : Dialog V) (msgText : Option String)
    (edit : Bool) (error : Option String) (ns : StateId) (st : St V) :
    St V × Option PyErr :=
  if !pyTruthyState ns then (d.done st, none)
  else
    match pyDictItem d.steps ns with
    | .error e => (st, some e)
    | .ok stp => d.switch_step msgText error ns stp edit st

/-- `Dialog.next`: the on-next hook; unwrap an aiogram `State` instance;
resolve `NotImplemented` through `next_step`; hand off to a nested dialog;
complete via `done` when the resolved directive is falsy; otherwise switch to
the resolved step (`self.steps[next_state]` raising `KeyError` when it is not
registered). -/
def Dialog.next {V : Type} (d : Dialog V) (current_state : StateId)
    (msgText : Option String) (edit : Bool) (error : Option String)
    (next_state : Directive) (st : St V) : St V × Option PyErr :=
  let st := emitE st .onNext
  let next_state := match next_state with | .stateObj s => Directive.py s | x => x
  match next_state with
  | .dialogRef n => (d.switch_dialog n st, none)
  | .notImpl =>
    match d.next_step current_state with
    | .error e => (st, some e)
    | .ok ns => d.nextResolved msgText edit error ns st
  | .py ns => d.nextResolved msgText edit error ns st
  | .stateObj s => d.nextResolved msgText edit error s st

/-- `Dialog.back`: read the current state, `self.steps[current_state]`
(`KeyError` if unregistered), run the on-back hook, delete the step's field
from the bag, resolve the previous state (the step's explicit override, or
`self.states[self.states.index(current_state) - 1]`), look up its step
(`KeyError` possible), switch to it as an edit, and commit. -/
def Dialog.back {V : Type} (d : Dialog V) (cMsgText : Option String)
    (st : St V) : St V × Option PyErr :=
  let current_state := st.fsm
  match pyDictItem d.steps current_state with
  | .error e => (st, some e)
  | .ok current_step =>
    let st := emitE st .onBack
    let st := { st with dd_bag := bagDel st.dd_bag current_step.fieldName }
    let prevRes : Except PyErr StateId :=
      match current_step.back with
      | some p => .ok p
      | none =>
        match pyIndex d.states current_state with
        | .error e => .error e
        | .ok i => pyListGet d.states ((i : Int) - 1)
    match prevRes with
    | .error e => (st, some e)
    | .ok prev_state =>
      match pyDictItem d.steps prev_state with
      | .error e => (st, some e)
      | .ok prev_step =>
        match d.switch_step cMsgText none prev_state prev_step true st with
        | (st, some e) => (st, some e)
        | (st, none) => (St.commit st, none)

/-- `Dialog.handle_message`: look up the step for the chat's current state
(`StateBrokenError` when missing), run its message processor over the bag; on
success store the produced value under the step's field, on a `ValueError`
stay on the current state and carry the error; `edit` is set when the
directive equals the current state; delegate to `next`, then commit. -/
def Dialog.handle_message {V : Type} (d : Dialog V) (m : Msg) (w : World V) :
    World V × List (Effect V) × Option PyErr :=
  let current_state := w.fsm
  match pyDictGet d.steps current_state with
  | none => (w, [], some (.stateBroken current_state))
  | some stp =>
    let st := St.load w
    match stp.process_message m st.dd_bag with
    | .ok (value, next_state) =>
      let st := { st with dd_bag := bagSet st.dd_bag stp.fieldName value }
      let edit := dirEqState next_state current_state
      match d.next current_state m.text edit none next_state st with
      | (st, some e) => (St.unload st, st.trace, some e)
      | (st, none) => let st := St.commit st; (St.unload st, st.trace, none)
    | .error e =>
      match d.next current_state m.text true (some e) (.py current_state) st with
      | (st, some e2) => (St.unload st, st.trace, some e2)
      | (st, none) => let st := St.commit st; (St.unload st, st.trace, none)

/-- `Dialog.handle_callback`: dispatch the four internal navigation
identifiers to done/back/skip/cancel (each acknowledged, and committed only
where the source commits); otherwise look up the current step
(`StateBrokenError` when missing), run its callback processor with the same
success/validation handling as `handle_message` but always as an edit, then
acknowledge and commit. -/
def Dialog.handle_callback {V : Type} (d : Dialog V) (c : Cb) (w : World V) :
    World V × List (Effect V) × Option PyErr :=
  let current_state := w.fsm
  let st := St.load w
  if c.data = d.done_cd then
    let st := d.done st
    let st := emitE st .answer
    (St.unload st, st.trace, none)
  else if c.data = d.back_cd then
    match d.back c.msgText st with
    | (st, some e) => (St.unload st, st.trace, some e)
    | (st, none) => let st := emitE st .answer; (St.unload st, st.trace, none)
  else if c.data = d.skip_cd then
    match d.next current_state c.msgText true none .notImpl st with
    | (st, some e) => (St.unload st, st.trace, some e)
    | (st, none) => let st := emitE st .answer; (St.unload st, st.trace, none)
  else if c.data = d.cancel_cd then
    let st := d.cancel st
    let st := emitE st .answer
    (St.unload st, st.trace, none)
  else
    match pyDictGet d.steps current_state with
    | none => (w, [], some (.stateBroken current_state))
    | some stp =>
      match stp.process_callback c st.dd_bag with
      | .ok (value, next_state) =>
        let st := { st with dd_bag := bagSet st.dd_bag stp.fieldName value }
        match d.next current_state c.msgText true none next_state st with
        | (st, some e) => (St.unload st, st.trace, some e)
        | (st, none) =>
          let st := emitE st .answer
          let st := St.commit st
          (St.unload st, st.trace, none)
      | .error e =>
        match d.next current_state c.msgText true (some e) (.py current_state) st with
        | (st, some e2) => (St.unload st, st.trace, some e2)
        | (st, none) =>
          let st := emitE st .answer
          let st := St.commit st
          (St.unload st, st.trace, none)

/-! ## Concrete instances used by witnesses and counterexamples -/

/-- A minimal step whose text render is a constant and whose processors
reject every input. -/
def sPlain (f : String) : Step Nat :=
  { fieldName := f, render_text := fun _ _ => f }

/-- A step whose message processor always raises a validation failure and
whose text render surfaces the error. -/
def sReject (f : String) : Step Nat :=
  { fieldName := f,
    render_text := fun _ e => match e with | some s => f ++ "!" ++ s | none => f,
    process_message := fun _ _ => .error "bad" }

/-- A three-state dialog with plain steps. -/
def dABC : Dialog Nat :=
  { steps := [(some "A", sPlain "a"), (some "B", sPlain "b"), (some "C", sPlain "c")] }

/-- A dialog whose middle state identifier is the empty string. -/
def dEmptyMid : Dialog Nat :=
  { steps := [(some "A", sPlain "a"), (some "", sPlain "e"), (some "B", sPlain "b")] }

/-- A single-state dialog registered under the empty-string identifier, whose
step rejects every message; two done-callbacks to make the finish sequence
visible. -/
def dEmptyOnly : Dialog Nat :=
  { steps := [(some "", sReject "f")], done_cbs := 2 }

/-- The world for the `dEmptyOnly` counterexample: mid-flow on state `""`
with a committed field value and a displayed message. -/
def wEmptyOnly : World Nat :=
  { fsm := some "", store_msg := some 7, store_bag := [("f", 5)], fresh := 10 }

/-- A single-state dialog on state `"A"` whose step rejects every message. -/
def dRejectA : Dialog Nat := { steps := [(some "A", sReject "a")] }

/-- The world for the `dRejectA` witness: mid-flow on `"A"` with a committed
field value and a displayed message showing stale text. -/
def wRejectA : World Nat :=
  { fsm := some "A", store_msg := some 7, store_bag := [("a", 3)], fresh := 10 }

/-- A world parked on a state (`"Z"`) that no dialog above registers. -/
def wBrokenZ : World Nat :=
  { fsm := some "Z", store_msg := some 9, store_bag := [("a", 1)], fresh := 10 }

/-- A two-state dialog for the back-navigation witness; the second step has
no explicit back override. -/
def dTwo : Dialog Nat :=
  { steps := [(some "A", sPlain "a"), (some "B", sPlain "b")] }

/-- The world for the back witness: mid-flow on `"B"` with both fields
committed and a displayed message. -/
def wTwoB : World Nat :=
  { fsm := some "B", store_msg := some 9, store_bag := [("a", 1), ("b", 2)], fresh := 50 }

/-- An in-flight event state with a displayed message and a nonempty bag, for
the `done`-sequence witness. -/
def stDone : St Nat :=
  { fsm := some "A", store_msg := some 5, store_bag := [("a", 1)],
    dd_msg := some 5, dd_bag := [("a", 1)], fresh := 0, trace := [] }

/-- A dialog with two done-callbacks and one finished-callback registered. -/
def dDone : Dialog Nat :=
  { steps := [(some "A", sPlain "a")], done_cbs := 2, finished_cbs := 1 }

/-- A leaf button whose label and callback identifier are the same constant. -/
def tbU (s : String) : Keyboard Unit :=
  .button none (fun _ => s) (fun _ => s)

/-- Five visible leaf buttons under a flattening group of width 2. -/
def kbFive : Keyboard Unit :=
  .group none [tbU "1", tbU "2", tbU "3", tbU "4", tbU "5"] false 2

/-- A row-preserving inner group of two leaf buttons: renders two rows. -/
def kbInner : Keyboard Unit := .group none [tbU "a", tbU "b"] true 0

/-- A flattening group (width 0) whose first child renders two rows. -/
def kbBadFlat : Keyboard Unit := .group none [kbInner, tbU "c"] false 0

/-- A flattening group (width 2) whose first child renders two rows. -/
def kbBadWrap : Keyboard Unit := .group none [kbInner, tbU "c"] false 2

/-- A leaf button whose visibility gate is always false. -/
def kbHidden : Keyboard Unit :=
  .button (some fun _ => false) (fun _ => "x") (fun _ => "x")

/-- A flattening group of positive width whose only child renders empty. -/
def kbEmptyWrap : Keyboard Unit := .group none [kbHidden] false 2

/-! ## Helper lemmas -/

theorem pyIndex_not_mem {α : Type} [DecidableEq α] {l : List α} {a : α}
    (h : a ∉ l) : pyIndex l a = .error .valueError := by
  induction l with
  | nil => rfl
  | cons x xs ih =>
    simp only [List.mem_cons, not_or] at h
    have hx : ¬x = a := fun he => h.1 he.symm
    simp [pyIndex, hx, ih h.2, Except.map]

theorem pyIndex_ok_of_mem {α : Type} [DecidableEq α] {l : List α} {a : α}
    (h : a ∈ l) : ∃ i, pyIndex l a = .ok i := by
  induction l with
  | nil => cases h
  | cons x xs ih =>
    by_cases hx : x = a
    · exact ⟨0, by simp [pyIndex, hx]⟩
    · obtain ⟨i, hi⟩ := ih ((List.mem_cons.mp h).resolve_left fun ha => hx ha.symm)
      exact ⟨i + 1, by simp [pyIndex, hx, hi, Except.map]⟩

theorem pyIndex_get {α : Type} [DecidableEq α] {l : List α} (hnd : l.Nodup)
    (k : Nat) (h : k < l.length) : pyIndex l (l.get ⟨k, h⟩) = .ok k := by
  induction l generalizing k with
  | nil => simp at h
  | cons x xs ih =>
    cases k with
    | zero => simp [pyIndex]
    | succ n =>
      have hn : n < xs.length := Nat.lt_of_succ_lt_succ h
      have hx : x ≠ xs.get ⟨n, hn⟩ := by
        intro he
        exact (List.nodup_cons.mp hnd).1 (he ▸ List.get_mem xs n hn)
      simp only [List.get_cons_succ]
      simp only [pyIndex, if_neg (fun he => hx he)]
      rw [ih (List.nodup_cons.mp hnd).2 n hn]
      rfl

theorem pyDictGet_mem_keys {α β : Type} [DecidableEq α] {l : List (α × β)}
    {k : α} {v : β} (h : pyDictGet l k = some v) : k ∈ l.map Prod.fst := by
  induction l with
  | nil => simp [pyDictGet] at h
  | cons p rest ih =>
    obtain ⟨a, b⟩ := p
    by_cases ha : a = k
    · simp [ha]
    · simp only [pyDictGet, if_neg ha] at h
      simp [ih h]

theorem pyDictGet_of_mem {α β : Type} [DecidableEq α] {l : List (α × β)}
    {k : α} (h : k ∈ l.map Prod.fst) : ∃ v, pyDictGet l k = some v := by
  induction l with
  | nil => simp at h
  | cons p rest ih =>
    obtain ⟨a, b⟩ := p
    by_cases ha : a = k
    · exact ⟨b, by simp [pyDictGet, ha]⟩
    · simp only [List.map_cons, List.mem_cons] at h
      obtain ⟨v, hv⟩ := ih (h.resolve_left fun hk => ha hk.symm)
      exact ⟨v, by simp [pyDictGet, ha, hv]⟩

theorem pyDictItem_ok_of_mem {α β : Type} [DecidableEq α] {l : List (α × β)}
    {k : α} (h : k ∈ l.map Prod.fst) : ∃ v, pyDictItem l k = .ok v := by
  obtain ⟨v, hv⟩ := pyDictGet_of_mem h
  exact ⟨v, by simp [pyDictItem, hv]⟩

theorem pyTruthyMsg_iff {o : Option Nat} :
    pyTruthyMsg o = true ↔ ∃ id, o = some id ∧ id ≠ 0 := by
  cases o with
  | none => simp [pyTruthyMsg]
  | some n => simp [pyTruthyMsg]

theorem get_kbd_ok {V : Type} (d : Dialog V) (s : StateId) (stp : Step V)
    (bag : Bag V) (hs : s ∈ d.states) : ∃ kbd, d.get_kbd s stp bag = .ok kbd := by
  obtain ⟨i, hi⟩ := pyIndex_ok_of_mem hs
  unfold Dialog.get_kbd Dialog.can_back
  rw [hi]
  by_cases h1 : i < 1 <;> simp [h1]

theorem foldl_emitE {V : Type} (f : Nat → Effect V) (l : List Nat) (st : St V) :
    l.foldl (fun s i => emitE s (f i)) st = { st with trace := st.trace ++ l.map f } := by
  induction l generalizing st with
  | nil => simp
  | cons x xs ih => rw [List.foldl_cons, ih]; simp [emitE]

theorem done_spec {V : Type} (d : Dialog V) (st : St V) (id : Nat)
    (hmsg : st.dd_msg = some id) (hid : id ≠ 0) :
    d.done st =
      { st with
        dd_msg := none
        dd_bag := []
        trace := st.trace ++ [Effect.clearMarkup id] ++ [Effect.onDone st.dd_bag] ++
          (List.range d.done_cbs).map (fun i => Effect.doneCb i st.dd_bag) ++
          [Effect.onFinish] ++ (List.range d.finished_cbs).map Effect.finishedCb } := by
  unfold Dialog.done Dialog.do_finish Dialog.notify_finish
  rw [hmsg]
  dsimp only
  rw [if_pos hid]
  rw [foldl_emitE, foldl_emitE]
  simp [emitE]

theorem switch_step_facts {V : Type} (d : Dialog V) (mT : Option String)
    (err : Option String) (s : StateId) (stp : Step V) (edit : Bool) (st : St V)
    (hs : s ∈ d.states) :
    ∃ st', d.switch_step mT err s stp edit st = (st', none) ∧
      st'.fsm = s ∧ st'.dd_bag = st.dd_bag ∧
      st'.store_bag = st.store_bag ∧ st'.store_msg = st.store_msg ∧
      ((edit && pyTruthyMsg st.dd_msg) = true → st'.dd_msg = st.dd_msg) ∧
      ((∃ i, Effect.editText i (stp.render_text st.dd_bag err) ∈ st'.trace) ∨
       (∃ i k, Effect.send i (stp.render_text st.dd_bag err) k ∈ st'.trace) ∨
       mT = some (stp.render_text st.dd_bag err)) := by
  obtain ⟨kbd, hkbd⟩ := get_kbd_ok d s stp st.dd_bag hs
  unfold Dialog.switch_step
  dsimp only
  rw [hkbd]
  by_cases he : (edit && pyTruthyMsg st.dd_msg) = true
  · obtain ⟨id, hmsg, hid⟩ := pyTruthyMsg_iff.mp (Bool.and_eq_true edit _ ▸ he).2
    rw [he, if_pos rfl, hmsg]
    dsimp only
    by_cases ht : mT = some (stp.render_text st.dd_bag err)
    · rw [if_neg (fun hN => hN ht)]
      exact ⟨_, rfl, rfl, rfl, rfl, rfl, fun _ => hmsg, Or.inr (Or.inr ht)⟩
    · rw [if_pos ht]
      refine ⟨_, rfl, rfl, rfl, rfl, rfl, fun _ => hmsg, Or.inl ⟨id, ?_⟩⟩
      simp [emitE]
  · rw [if_neg he]
    cases hm : st.dd_msg with
    | none =>
      dsimp only
      refine ⟨_, rfl, rfl, rfl, rfl, rfl, fun h => absurd h (hm ▸ he),
        Or.inr (Or.inl ⟨st.fresh, kbd, ?_⟩)⟩
      simp [emitE]
    | some id =>
      dsimp only
      by_cases hid : id ≠ 0
      · rw [if_pos hid]
        refine ⟨_, rfl, rfl, rfl, rfl, rfl, fun h => absurd h (hm ▸ he),
          Or.inr (Or.inl ⟨(emitE st (Effect.clearMarkup id)).fresh, kbd, ?_⟩)⟩
        simp [emitE]
      · rw [if_neg hid]
        refine ⟨_, rfl, rfl, rfl, rfl, rfl, fun h => absurd h (hm ▸ he),
          Or.inr (Or.inl ⟨st.fresh, kbd, ?_⟩)⟩
        simp [emitE]

/-- `Dialog.done` never changes the chat's recorded FSM state. -/
theorem done_fsm {V : Type} (d : Dialog V) (st : St V) : (d.done st).fsm = st.fsm := by
  unfold Dialog.done Dialog.do_finish Dialog.notify_finish
  dsimp only
  rw [foldl_emitE, foldl_emitE]
  dsimp only [emitE]
  rcases hm : st.dd_msg with _ | id
  · rfl
  · dsimp only
    by_cases hid : id ≠ 0
    · rw [if_pos hid]
    · rw [if_neg hid]

/-- Claim C2, amended.  The claim holds for truthy state identifiers:
`next_step` of an absent (`None`) current state returns the first state of a
nonempty dialog; for the registered truthy state at position K with
K < N-1 it returns the state at position K+1; and for the truthy state at
position N-1 it returns `None` ("no next state").  The amendment, forced by
the counterexample, is that a registered falsy identifier (the empty string)
is treated like an absent state — `next_step` then returns the first state
instead of following the positional rule. -/
theorem claim_C2_theorem {V : Type} (d : Dialog V) (hnd : d.states.Nodup) :
    (∀ a l, d.states = a :: l → d.next_step none = .ok a) ∧
    (∀ k, ∀ hk : k + 1 < d.states.length,
      pyTruthyState (d.states.get ⟨k, Nat.lt_of_succ_lt hk⟩) = true →
      d.next_step (d.states.get ⟨k, Nat.lt_of_succ_lt hk⟩) = .ok (d.states.get ⟨k + 1, hk⟩)) ∧
    (∀ hk : 0 < d.states.length,
      pyTruthyState (d.states.get ⟨d.states.length - 1, Nat.sub_lt hk Nat.one_pos⟩) = true →
      d.next_step (d.states.get ⟨d.states.length - 1, Nat.sub_lt hk Nat.one_pos⟩) = .ok none) := by
  refine ⟨?_, ?_, ?_⟩
  · intro a l hst
    unfold Dialog.next_step
    rw [if_pos (show (!pyTruthyState none) = true from rfl), hst]
  · intro k hk htr
    have hlt := Nat.lt_of_succ_lt hk
    unfold Dialog.next_step
    rw [htr]
    simp only [Bool.not_true, Bool.false_eq_true, if_false]
    rw [pyIndex_get hnd k hlt]
    dsimp only
    rw [dif_pos hk]
  · intro hk htr
    have hl : d.states.length - 1 < d.states.length := Nat.sub_lt hk Nat.one_pos
    unfold Dialog.next_step
    rw [htr]
    simp only [Bool.not_true, Bool.false_eq_true, if_false]
    rw [pyIndex_get hnd _ hl]
    dsimp only
    rw [dif_neg (by omega)]

/-- Claim C2 counterexample: in a dialog whose middle registered state is
the empty string, `next_step` of that state returns the first state, not its
positional successor and not the end-of-flow `None`. -/
theorem claim_C2_counterexample :
    dEmptyMid.states = [some "A", some "", some "B"] ∧
    dEmptyMid.next_step (some "") = .ok (some "A") ∧
    (Except.ok (some "A") : Except PyErr StateId) ≠ .ok (some "B") ∧
    (Except.ok (some "A") : Except PyErr StateId) ≠ .ok none := by
  refine ⟨by decide, by decide, by decide, by decide⟩

/-- Claim C2 witness: the amended theorem applied to a concrete three-state
dialog with truthy identifiers. -/
theorem claim_C2_witness :
    dABC.states.Nodup ∧
    dABC.next_step none = .ok (some "A") ∧
    dABC.next_step (some "A") = .ok (some "B") ∧
    dABC.next_step (some "C") = .ok none := by
  have h := claim_C2_theorem dABC (by decide)
  exact ⟨by decide, h.1 (some "A") [some "B", some "C"] rfl, h.2.1 0 (by decide) (by decide),
    h.2.2 (by decide) (by decide)⟩

/-- Claim C3, confirmed over the dialog's registered states: `can_back`
returns `False` when the step is absent, returns `False` for the first state
in the ordered list regardless of the dialog- and step-level back flags, and
for every registered non-first state returns the conjunction of the
dialog-level back flag and the step's own back capability.  (For a state
outside the registered list it raises instead of returning — that behaviour
is claim C10.) -/
theorem claim_C3_theorem {V : Type} (d : Dialog V) (stp : Step V) (s : StateId)
    (hnd : d.states.Nodup) :
    d.can_back s none = .ok false ∧
    (∀ h0 : 0 < d.states.length, d.can_back (d.states.get ⟨0, h0⟩) (some stp) = .ok false) ∧
    (∀ k, ∀ hk : k < d.states.length, 0 < k →
      d.can_back (d.states.get ⟨k, hk⟩) (some stp) = .ok (d.canBackFlag && stp.canBackF)) := by
  refine ⟨rfl, ?_, ?_⟩
  · intro h0
    unfold Dialog.can_back
    rw [pyIndex_get hnd 0 h0]
    rfl
  · intro k hk hpos
    unfold Dialog.can_back
    rw [pyIndex_get hnd k hk]
    dsimp only
    rw [if_neg (by omega)]

/-- Claim C3 witness: the theorem applied to a concrete three-state dialog. -/
theorem claim_C3_witness :
    dABC.states.Nodup ∧ (0 : Nat) < 1 ∧
    dABC.can_back (some "Q") none = .ok false ∧
    dABC.can_back (some "A") (some (sPlain "x")) = .ok false ∧
    dABC.can_back (some "B") (some (sPlain "x")) = .ok true := by
  have h := claim_C3_theorem dABC (sPlain "x") (some "Q") (by decide)
  exact ⟨by decide, by decide, h.1, h.2.1 (by decide),
    h.2.2 1 (by decide) (by decide)⟩

/-- Claim C10, confirmed: `can_back` is not total — for a present step and a
state identifier not among the dialog's registered states, the positional
lookup `self.states.index(state)` raises `ValueError`; it returns a boolean
exactly when the state is registered or the step is absent. -/
theorem claim_C10_theorem {V : Type} (d : Dialog V) (stp : Step V) (s : StateId)
    (hs : s ∉ d.states) :
    d.can_back s (some stp) = .error .valueError ∧
    (∀ r ∈ d.states, ∃ b, d.can_back r (some stp) = .ok b) ∧
    d.can_back s none = .ok false := by
  refine ⟨?_, ?_, rfl⟩
  · unfold Dialog.can_back
    rw [pyIndex_not_mem hs]
  · intro r hr
    obtain ⟨i, hi⟩ := pyIndex_ok_of_mem hr
    unfold Dialog.can_back
    rw [hi]
    by_cases h1 : i < 1 <;> simp [h1]

/-- Claim C10 witness: the theorem applied to a concrete dialog and an
unregistered state. -/
theorem claim_C10_witness :
    (some "Z" : StateId) ∉ dABC.states ∧
    dABC.can_back (some "Z") (some (sPlain "x")) = .error .valueError := by
  have h := claim_C10_theorem dABC (sPlain "x") (some "Z") (by decide)
  exact ⟨by decide, h.1⟩

/-- Claim C9, confirmed: in `Dialog.next` the resolved next-state directive
triggers completion via `done` whenever it is Python-falsy — the empty
string exactly like `None` — so a step whose processing returns an
empty-string next state finishes the dialog, and a dialog whose first
registered state identifier is the empty string finishes from `next_step`'s
default resolution rather than switching to that state (the recorded FSM
state is left untouched by `done`). -/
theorem claim_C9_theorem {V : Type} (d : Dialog V) (cs : StateId) (mT : Option String)
    (edit : Bool) (err : Option String) (st : St V) :
    (d.next cs mT edit err (.py (some "")) st = (d.done (emitE st .onNext), none)) ∧
    (d.next cs mT edit err (.py none) st = (d.done (emitE st .onNext), none)) ∧
    (∀ rest, d.states = some "" :: rest → pyTruthyState cs = false →
      d.next cs mT edit err .notImpl st = (d.done (emitE st .onNext), none)) ∧
    (d.done (emitE st .onNext)).fsm = st.fsm := by
  refine ⟨rfl, rfl, ?_, ?_⟩
  · intro rest hst hcs
    unfold Dialog.next Dialog.next_step
    rw [hcs, hst]
    rfl
  · rw [done_fsm]
    rfl

/-- Claim C9 witness: the theorem applied to a dialog whose only registered
state identifier is the empty string. -/
theorem claim_C9_witness :
    dEmptyOnly.states = some "" :: [] ∧ pyTruthyState none = false ∧
    dEmptyOnly.next none none true none .notImpl stDone =
      (dEmptyOnly.done (emitE stDone .onNext), none) := by
  have h := claim_C9_theorem dEmptyOnly none none true none stDone
  exact ⟨by decide, by decide, h.2.2.1 [] (by decide) (by decide)⟩

/-- Claim C7, confirmed: invoking `done` with an active displayed message
(truthy message id) produces exactly, in order: the clearing of the
displayed message's buttons, the `DialogData` reset (message id becomes
absent, field bag empties), the on-done hook, every registered done-callback
in registration order, the on-finish hook, and every finished-callback in
registration order — the hook and the done-callbacks all receiving the full
data bag as it was before the reset.  (The no-op-edit tolerance is built
into the model: the button-clearing edit is recorded as attempted and a
`MessageNotModified` outcome is swallowed by the source.) -/
theorem claim_C7_theorem {V : Type} (d : Dialog V) (st : St V) (id : Nat)
    (hmsg : st.dd_msg = some id) (hid : id ≠ 0) :
    d.done st =
      { st with
        dd_msg := none
        dd_bag := []
        trace := st.trace ++ [Effect.clearMarkup id] ++ [Effect.onDone st.dd_bag] ++
          (List.range d.done_cbs).map (fun i => Effect.doneCb i st.dd_bag) ++
          [Effect.onFinish] ++ (List.range d.finished_cbs).map Effect.finishedCb } :=
  done_spec d st id hmsg hid

/-- Claim C7 witness: the theorem applied to a concrete in-flight state with
a displayed message, two done-callbacks and one finished-callback. -/
theorem claim_C7_witness :
    stDone.dd_msg = some 5 ∧ (5 : Nat) ≠ 0 ∧
    dDone.done stDone =
      { stDone with
        dd_msg := none
        dd_bag := []
        trace := [Effect.clearMarkup 5, Effect.onDone [("a", 1)],
          Effect.doneCb 0 [("a", 1)], Effect.doneCb 1 [("a", 1)],
          Effect.onFinish, Effect.finishedCb 0] } := by
  have h := claim_C7_theorem dDone stDone 5 rfl (by decide)
  exact ⟨rfl, by decide, by simpa using h⟩

/-- Python list indexing at a nonnegative in-range index. -/
theorem pyListGet_ofNat {α : Type} (l : List α) (k : Nat) (hk : k < l.length) :
    pyListGet l (k : Int) = .ok (l.get ⟨k, hk⟩) := by
  unfold pyListGet
  dsimp only
  have h0 : ¬((k : Int) < 0) := by omega
  simp only [h0, if_false]
  rw [dif_pos ⟨by omega, by simpa using hk⟩]
  simp

/-- Claim C6, amended.  For a plain message, and for a callback carrying
none of the four internal navigation identifiers, a chat state with no
registered step makes the handler raise `StateBrokenError` carrying the
offending state, with no state transition, no send/edit, and no commit (the
world is returned unchanged and the effect trace is empty).  The amendment,
forced by the counterexample: the internal back-navigation callback instead
raises a plain `KeyError` from `self.steps[current_state]` (line 141) — it
still performs no transition or send/edit. -/
theorem claim_C6_theorem {V : Type} (d : Dialog V) (m : Msg) (c : Cb) (w : World V)
    (hmiss : pyDictGet d.steps w.fsm = none) :
    (d.handle_message m w = (w, [], some (.stateBroken w.fsm))) ∧
    (c.data ≠ d.done_cd → c.data ≠ d.back_cd → c.data ≠ d.skip_cd → c.data ≠ d.cancel_cd →
      d.handle_callback c w = (w, [], some (.stateBroken w.fsm))) ∧
    (c.data = d.back_cd → c.data ≠ d.done_cd →
      d.handle_callback c w = (w, [], some PyErr.keyError)) := by
  refine ⟨?_, ?_, ?_⟩
  · unfold Dialog.handle_message
    dsimp only
    rw [hmiss]
  · intro h1 h2 h3 h4
    unfold Dialog.handle_callback
    dsimp only
    rw [if_neg h1, if_neg h2, if_neg h3, if_neg h4, hmiss]
  · intro hb h1
    unfold Dialog.handle_callback
    dsimp only
    rw [if_neg h1, if_pos hb]
    unfold Dialog.back
    dsimp only
    have hitem : pyDictItem d.steps (St.load w).fsm = .error .keyError := by
      unfold pyDictItem
      rw [show (St.load w).fsm = w.fsm from rfl, hmiss]
    rw [hitem]
    rfl

/-- Claim C6 counterexample: the internal back callback on an unregistered
state raises `KeyError`, not `StateBrokenError`. -/
theorem claim_C6_counterexample :
    dTwo.handle_callback { data := "[back]", msgText := some "B" } wBrokenZ =
      (wBrokenZ, [], some PyErr.keyError) ∧
    some PyErr.keyError ≠ some (PyErr.stateBroken (some "Z")) := by
  exact ⟨by decide, by decide⟩

/-- Claim C6 witness: the amended theorem applied to a concrete dialog with
the chat parked on an unregistered state, for all three event kinds. -/
theorem claim_C6_witness :
    pyDictGet dTwo.steps wBrokenZ.fsm = none ∧
    dTwo.handle_message { text := some "t" } wBrokenZ =
      (wBrokenZ, [], some (.stateBroken (some "Z"))) ∧
    dTwo.handle_callback { data := "x", msgText := none } wBrokenZ =
      (wBrokenZ, [], some (.stateBroken (some "Z"))) ∧
    dTwo.handle_callback { data := "[back]", msgText := none } wBrokenZ =
      (wBrokenZ, [], some PyErr.keyError) := by
  have h1 := claim_C6_theorem dTwo { text := some "t" } { data := "x", msgText := none }
    wBrokenZ rfl
  have h2 := claim_C6_theorem dTwo { text := some "t" } { data := "[back]", msgText := none }
    wBrokenZ rfl
  exact ⟨rfl, h1.1, h1.2.1 (by decide) (by decide) (by decide) (by decide),
    h2.2.2 rfl (by decide)⟩

/-- Claim C1, amended.  For every dialog, every registered state with a
truthy (nonempty) identifier, and every inbound plain message whose
step-processing raises a validation failure (`ValueError`): handling
completes without an exception, the chat's recorded state is unchanged, the
committed data bag — in particular the entry under the step's field name —
is unchanged, and the step's text is re-rendered with the validation error
passed in: the trace contains an edit or send of that rendered text, unless
the displayed message already shows exactly that text.  The amendment,
forced by the counterexample, excludes a registered falsy identifier (empty
string), where the validation-failure path instead finishes the dialog and
empties the bag. -/
theorem claim_C1_theorem {V : Type} (d : Dialog V) (stp : Step V) (m : Msg)
    (w : World V) (e : String)
    (hreg : pyDictGet d.steps w.fsm = some stp)
    (htr : pyTruthyState w.fsm = true)
    (hproc : stp.process_message m w.store_bag = .error e) :
    (d.handle_message m w).2.2 = none ∧
    (d.handle_message m w).1.fsm = w.fsm ∧
    (d.handle_message m w).1.store_bag = w.store_bag ∧
    ((∃ i, Effect.editText i (stp.render_text w.store_bag (some e)) ∈ (d.handle_message m w).2.1) ∨
     (∃ i k, Effect.send i (stp.render_text w.store_bag (some e)) k ∈ (d.handle_message m w).2.1) ∨
     m.text = some (stp.render_text w.store_bag (some e))) := by
  have hmem : w.fsm ∈ d.states := pyDictGet_mem_keys hreg
  have hitem : pyDictItem d.steps w.fsm = .ok stp := by
    unfold pyDictItem
    rw [hreg]
  obtain ⟨st', hss, hfsm, hbag, hsbag, hsmsg, hdd, hrender⟩ :=
    switch_step_facts d m.text (some e) w.fsm stp true (emitE (St.load w) .onNext) hmem
  have hnx : d.next w.fsm m.text true (some e) (.py w.fsm) (St.load w) = (st', none) := by
    unfold Dialog.next Dialog.nextResolved
    dsimp only
    rw [htr]
    simp only [Bool.not_true, Bool.false_eq_true, if_false]
    rw [hitem]
    exact hss
  have hproc' : stp.process_message m (St.load w).dd_bag = .error e := hproc
  have hmain : d.handle_message m w =
      ((St.commit st').unload, (St.commit st').trace, none) := by
    unfold Dialog.handle_message
    dsimp only
    rw [hreg]
    dsimp only
    rw [hproc']
    dsimp only
    rw [hnx]
  rw [hmain]
  refine ⟨rfl, ?_, ?_, ?_⟩
  · exact hfsm
  · exact hbag.trans rfl
  · exact hrender

/-- Claim C1 witness: the amended theorem applied to a concrete one-state
dialog whose step rejects the message. -/
theorem claim_C1_witness :
    pyDictGet dRejectA.steps wRejectA.fsm = some (sReject "a") ∧
    pyTruthyState wRejectA.fsm = true ∧
    (sReject "a").process_message { text := some "hi" } wRejectA.store_bag = .error "bad" ∧
    (dRejectA.handle_message { text := some "hi" } wRejectA).2.2 = none ∧
    (dRejectA.handle_message { text := some "hi" } wRejectA).1.fsm = some "A" ∧
    (dRejectA.handle_message { text := some "hi" } wRejectA).1.store_bag = [("a", 3)] := by
  have h := claim_C1_theorem dRejectA (sReject "a") { text := some "hi" } wRejectA "bad"
    rfl (by decide) rfl
  exact ⟨rfl, by decide, rfl, h.1, h.2.1, h.2.2.1⟩

/-- Claim C1 counterexample: with the registered state identifier `""`, a
validation failure drives the falsy-directive path of `next` into `done`:
the committed bag is emptied (the field's prior value is lost) and the trace
is the finish sequence — no re-render of the step's text occurs. -/
theorem claim_C1_counterexample :
    pyDictGet dEmptyOnly.steps wEmptyOnly.fsm = some (sReject "f") ∧
    wEmptyOnly.store_bag = [("f", 5)] ∧
    (dEmptyOnly.handle_message { text := some "x" } wEmptyOnly).1.store_bag = [] ∧
    ([] : Bag Nat) ≠ [("f", 5)] ∧
    (dEmptyOnly.handle_message { text := some "x" } wEmptyOnly).2.1 =
      [Effect.onNext, Effect.clearMarkup 7, Effect.onDone [("f", 5)],
       Effect.doneCb 0 [("f", 5)], Effect.doneCb 1 [("f", 5)], Effect.onFinish] := by
  refine ⟨rfl, rfl, by decide, by decide, by decide⟩

/-- Claim C8, confirmed: a callback carrying the internal back identifier,
handled in a registered non-first state, deletes the current step's field
from the data bag (visible in the committed bag) and transitions to the
step's explicit back-override state when one is set, otherwise to the state
immediately preceding the current state in the ordered list; the switch is
an edit-in-place: with a displayed message, no new message id is recorded. -/
theorem claim_C8_theorem {V : Type} (d : Dialog V) (c : Cb) (w : World V) (stp : Step V)
    (k : Nat) (hk : k < d.states.length) (hpos : 0 < k) (hnd : d.states.Nodup)
    (hfsm : w.fsm = d.states.get ⟨k, hk⟩)
    (hstep : pyDictGet d.steps w.fsm = some stp)
    (hcb : c.data = d.back_cd) (hcd : c.data ≠ d.done_cd) :
    (∀ p ps, stp.back = some p → pyDictGet d.steps p = some ps →
      (d.handle_callback c w).2.2 = none ∧
      (d.handle_callback c w).1.fsm = p ∧
      (d.handle_callback c w).1.store_bag = bagDel w.store_bag stp.fieldName ∧
      (∀ mid, w.store_msg = some mid → mid ≠ 0 →
        (d.handle_callback c w).1.store_msg = some mid)) ∧
    (stp.back = none →
      (d.handle_callback c w).2.2 = none ∧
      (d.handle_callback c w).1.fsm =
        d.states.get ⟨k - 1, Nat.lt_of_le_of_lt (Nat.sub_le k 1) hk⟩ ∧
      (d.handle_callback c w).1.store_bag = bagDel w.store_bag stp.fieldName ∧
      (∀ mid, w.store_msg = some mid → mid ≠ 0 →
        (d.handle_callback c w).1.store_msg = some mid)) := by
  have hitem : pyDictItem d.steps (St.load w).fsm = .ok stp := by
    show pyDictItem d.steps w.fsm = .ok stp
    unfold pyDictItem
    rw [hstep]
  refine ⟨?_, ?_⟩
  · intro p ps hover hps
    have hmemp : p ∈ d.states := pyDictGet_mem_keys hps
    have hitemp : pyDictItem d.steps p = .ok ps := by
      unfold pyDictItem
      rw [hps]
    obtain ⟨st', hss, hfsm', hbag, hsbag, hsmsg, hdd, _⟩ :=
      switch_step_facts d c.msgText none p ps true
        { emitE (St.load w) Effect.onBack with
          dd_bag := bagDel (emitE (St.load w) Effect.onBack).dd_bag stp.fieldName } hmemp
    have hback : d.back c.msgText (St.load w) = (St.commit st', none) := by
      unfold Dialog.back
      dsimp only
      rw [hitem]
      dsimp only
      rw [hover]
      dsimp only
      rw [hitemp]
      dsimp only
      rw [hss]
    have hmain : d.handle_callback c w =
        ((emitE (St.commit st') Effect.answer).unload,
         (emitE (St.commit st') Effect.answer).trace, none) := by
      unfold Dialog.handle_callback
      dsimp only
      rw [if_neg hcd, if_pos hcb, hback]
    rw [hmain]
    refine ⟨rfl, hfsm', hbag.trans rfl, ?_⟩
    · intro mid hmid hmid0
      have htm : (true && pyTruthyMsg
          ({ emitE (St.load w) Effect.onBack with
             dd_bag := bagDel (emitE (St.load w) Effect.onBack).dd_bag
               stp.fieldName }).dd_msg) = true := by
        show (true && pyTruthyMsg w.store_msg) = true
        rw [hmid]
        simp [pyTruthyMsg, hmid0]
      exact (hdd htm).trans hmid
  · intro hover
    have hidx : pyIndex d.states (St.load w).fsm = .ok k := by
      show pyIndex d.states w.fsm = .ok k
      rw [hfsm]
      exact pyIndex_get hnd k hk
    have hkm : k - 1 < d.states.length := Nat.lt_of_le_of_lt (Nat.sub_le k 1) hk
    have hcast : ((k : Int) - 1) = ((k - 1 : Nat) : Int) := by omega
    have hprev : pyListGet d.states ((k : Int) - 1) =
        .ok (d.states.get ⟨k - 1, hkm⟩) := by
      rw [hcast]
      exact pyListGet_ofNat d.states (k - 1) hkm
    have hmemp : d.states.get ⟨k - 1, hkm⟩ ∈ d.states := List.get_mem _ _ _
    obtain ⟨ps, hps⟩ := pyDictItem_ok_of_mem (l := d.steps) hmemp
    obtain ⟨st', hss, hfsm', hbag, hsbag, hsmsg, hdd, _⟩ :=
      switch_step_facts d c.msgText none (d.states.get ⟨k - 1, hkm⟩) ps true
        { emitE (St.load w) Effect.onBack with
          dd_bag := bagDel (emitE (St.load w) Effect.onBack).dd_bag stp.fieldName } hmemp
    have hback : d.back c.msgText (St.load w) = (St.commit st', none) := by
      unfold Dialog.back
      dsimp only
      rw [hitem]
      dsimp only
      rw [hover]
      dsimp only
      rw [hidx]
      dsimp only
      rw [hprev]
      dsimp only
      rw [hps]
      dsimp only
      rw [hss]
    have hmain : d.handle_callback c w =
        ((emitE (St.commit st') Effect.answer).unload,
         (emitE (St.commit st') Effect.answer).trace, none) := by
      unfold Dialog.handle_callback
      dsimp only
      rw [if_neg hcd, if_pos hcb, hback]
    rw [hmain]
    refine ⟨rfl, hfsm', hbag.trans rfl, ?_⟩
    · intro mid hmid hmid0
      have htm : (true && pyTruthyMsg
          ({ emitE (St.load w) Effect.onBack with
             dd_bag := bagDel (emitE (St.load w) Effect.onBack).dd_bag
               stp.fieldName }).dd_msg) = true := by
        show (true && pyTruthyMsg w.store_msg) = true
        rw [hmid]
        simp [pyTruthyMsg, hmid0]
      exact (hdd htm).trans hmid

/-- Claim C8 witness: the theorem applied to a concrete two-state dialog
sitting on its second state with no back override. -/
theorem claim_C8_witness :
    wTwoB.fsm = dTwo.states.get ⟨1, by decide⟩ ∧
    (sPlain "b").back = none ∧
    (dTwo.handle_callback { data := "[back]", msgText := some "b" } wTwoB).2.2 = none ∧
    (dTwo.handle_callback { data := "[back]", msgText := some "b" } wTwoB).1.fsm = some "A" ∧
    (dTwo.handle_callback { data := "[back]", msgText := some "b" } wTwoB).1.store_bag =
      [("a", 1)] ∧
    (dTwo.handle_callback { data := "[back]", msgText := some "b" } wTwoB).1.store_msg =
      some 9 := by
  have h := (claim_C8_theorem dTwo { data := "[back]", msgText := some "b" } wTwoB
    (sPlain "b") 1 (by decide) (by decide) (by decide) rfl rfl rfl (by decide)).2 rfl
  exact ⟨rfl, rfl, h.1, h.2.1, h.2.2.1, h.2.2.2 9 rfl (by decide)⟩

/-- Flattening each sublist before concatenating equals flattening twice. -/
theorem flatten_map_flatten {α : Type} (l : List (List (List α))) :
    (l.map List.flatten).flatten = l.flatten.flatten := by
  induction l with
  | nil => rfl
  | cons x xs ih => simp [ih]

/-- With `keep_rows` set, the `Group._render_kbd` loop concatenates every
child's rendered rows onto the accumulator. -/
theorem render_children_keep {D : Type} (dta : D) (bs : List (Keyboard D))
    (rs : List (List (List RBtn))) (acc : List (List RBtn))
    (hbs : renderAll dta bs = .ok rs) :
    render_children dta true bs acc = .ok (acc ++ rs.flatten) := by
  induction bs generalizing rs acc with
  | nil =>
    unfold renderAll at hbs
    cases hbs
    simp [render_children]
  | cons b bt ih =>
    unfold renderAll at hbs
    cases hr : render_kbd dta b with
    | error e => rw [hr] at hbs; cases hbs
    | ok r =>
      rw [hr] at hbs
      cases ha : renderAll dta bt with
      | error e => rw [ha] at hbs; cases hbs
      | ok rt =>
        rw [ha] at hbs
        cases hbs
        simp only [render_children]
        rw [hr]
        dsimp only
        simp only [Bool.true_or, if_true]
        rw [ih rt (acc ++ r) ha]
        simp

/-- With `keep_rows` unset and a nonempty accumulator, the loop chains every
remaining child's buttons (flattened across that child's rows) into the
accumulator's first row. -/
theorem render_children_flat {D : Type} (dta : D) (bs : List (Keyboard D))
    (rs : List (List (List RBtn))) (r0 : List RBtn) (tl : List (List RBtn))
    (hbs : renderAll dta bs = .ok rs) :
    render_children dta false bs (r0 :: tl) =
      .ok ((r0 ++ rs.flatten.flatten) :: tl) := by
  induction bs generalizing rs r0 with
  | nil =>
    unfold renderAll at hbs
    cases hbs
    simp [render_children]
  | cons b bt ih =>
    unfold renderAll at hbs
    cases hr : render_kbd dta b with
    | error e => rw [hr] at hbs; cases hbs
    | ok r =>
      rw [hr] at hbs
      cases ha : renderAll dta bt with
      | error e => rw [ha] at hbs; cases hbs
      | ok rt =>
        rw [ha] at hbs
        cases hbs
        simp only [render_children]
        rw [hr]
        dsimp only
        simp only [List.isEmpty_cons, Bool.or_false]
        rw [if_neg (by simp)]
        rw [ih rt (r0 ++ r.flatten) ha]
        simp

/-- With `keep_rows` unset, an empty accumulator, and children that each
render at most one row, the loop produces a single row holding every
rendered button, or nothing when all children render empty. -/
theorem render_children_flat_empty {D : Type} (dta : D) (bs : List (Keyboard D))
    (rs : List (List (List RBtn)))
    (hbs : renderAll dta bs = .ok rs) (hrows : ∀ r ∈ rs, r.length ≤ 1) :
    render_children dta false bs [] =
      .ok (if rs.flatten = [] then [] else [rs.flatten.flatten]) := by
  induction bs generalizing rs with
  | nil =>
    unfold renderAll at hbs
    cases hbs
    simp [render_children]
  | cons b bt ih =>
    unfold renderAll at hbs
    cases hr : render_kbd dta b with
    | error e => rw [hr] at hbs; cases hbs
    | ok r =>
      rw [hr] at hbs
      cases ha : renderAll dta bt with
      | error e => rw [ha] at hbs; cases hbs
      | ok rt =>
        rw [ha] at hbs
        cases hbs
        simp only [render_children]
        rw [hr]
        dsimp only
        rcases r with _ | ⟨row, rrest⟩
        · rw [show ((if (false || List.isEmpty ([] : List (List RBtn))) = true
              then ([] : List (List RBtn)) ++ [] else
                match [] with
                | [] => ([] : List (List RBtn)) ++ []
                | r0 :: tl => (r0 ++ List.flatten ([] : List (List RBtn))) :: tl)) = []
            from rfl]
          rw [ih rt ha (fun r hrm => hrows r (by simp [hrm]))]
          simp
        · have hr1 : rrest = [] := by
            have h1 := hrows (row :: rrest) (by simp)
            simpa using h1
          subst hr1
          simp only [List.isEmpty_nil, Bool.or_true, List.nil_append, ite_self]
          rw [render_children_flat dta bt rt row [] ha]
          simp

/-- When every child renders empty, the loop leaves the accumulator empty. -/
theorem render_children_empty {D : Type} (dta : D) (keep : Bool)
    (bs : List (Keyboard D)) (hbs : ∀ b ∈ bs, render_kbd dta b = .ok []) :
    render_children dta keep bs [] = .ok [] := by
  induction bs with
  | nil => simp [render_children]
  | cons b bt ih =>
    simp only [render_children]
    rw [hbs b (by simp)]
    dsimp only
    rw [show ((if (keep || List.isEmpty ([] : List (List RBtn))) = true
        then ([] : List (List RBtn)) ++ [] else
          match [] with
          | [] => ([] : List (List RBtn)) ++ []
          | r0 :: tl => (r0 ++ List.flatten ([] : List (List RBtn))) :: tl)) = []
      from by simp]
    exact ih (fun x hx => hbs x (by simp [hx]))

/-- The `_wrap_kbd` loop preserves the buttons: completed rows plus the
pending row always hold exactly the processed input. -/
theorem wrap_loop_flatten (width : Int) (bs : List RBtn) (res : List (List RBtn))
    (row : List RBtn) :
    (wrap_loop width bs (res, row)).1.flatten ++ (wrap_loop width bs (res, row)).2 =
      res.flatten ++ row ++ bs := by
  induction bs generalizing res row with
  | nil => simp [wrap_loop]
  | cons b bt ih =>
    simp only [wrap_loop]
    by_cases hw : width ≤ (((row ++ [b]).length : Nat) : Int)
    · rw [if_pos hw, ih]
      simp
    · rw [if_neg hw, ih]
      simp

/-- The `_wrap_kbd` loop invariant: every completed row has exactly `width`
buttons (and is nonempty), and the pending row stays shorter than `width`. -/
theorem wrap_loop_lengths (width : Int) (hw : 1 ≤ width) (bs : List RBtn) :
    ∀ (res : List (List RBtn)) (row : List RBtn),
      (row.length : Int) < width →
      (∀ r ∈ res, (r.length : Int) = width ∧ r ≠ []) →
      (∀ r ∈ (wrap_loop width bs (res, row)).1, (r.length : Int) = width ∧ r ≠ []) ∧
      ((wrap_loop width bs (res, row)).2.length : Int) < width := by
  induction bs with
  | nil =>
    intro res row hrow hres
    simpa [wrap_loop] using ⟨hres, hrow⟩
  | cons b bt ih =>
    intro res row hrow hres
    simp only [wrap_loop]
    by_cases hwle : width ≤ (((row ++ [b]).length : Nat) : Int)
    · rw [if_pos hwle]
      apply ih
      · simpa using hw
      · intro r hr
        rcases List.mem_append.mp hr with h | h
        · exact hres r h
        · have hr2 : r = row ++ [b] := by simpa using h
          subst hr2
          refine ⟨?_, by simp⟩
          have hl : ((row ++ [b]).length : Int) = (row.length : Int) + 1 := by
            simp
          omega
    · rw [if_neg hwle]
      apply ih
      · omega
      · exact hres

/-- `Group._wrap_kbd` with a positive width partitions the buttons in order
into nonempty rows of exactly `width` buttons, except a shorter final row. -/
theorem wrap_kbd_spec (width : Int) (hw : 1 ≤ width) (l : List RBtn) :
    (wrap_kbd width l).flatten = l ∧
    (∀ r ∈ (wrap_kbd width l).dropLast, (r.length : Int) = width) ∧
    (∀ r ∈ wrap_kbd width l, (r.length : Int) ≤ width ∧ r ≠ []) := by
  have hfl := wrap_loop_flatten width l [] []
  have hlen := wrap_loop_lengths width hw l [] [] (by simpa using hw) (by simp)
  unfold wrap_kbd
  dsimp only
  by_cases hr : (wrap_loop width l ([], [])).2 = []
  · rw [if_pos hr]
    rw [hr] at hfl
    simp only [List.append_nil, List.flatten_nil, List.nil_append] at hfl
    refine ⟨hfl, ?_, ?_⟩
    · intro r hrm
      exact (hlen.1 r (List.dropLast_subset _ hrm)).1
    · intro r hrm
      exact ⟨le_of_eq (hlen.1 r hrm).1, (hlen.1 r hrm).2⟩
  · rw [if_neg hr]
    refine ⟨?_, ?_, ?_⟩
    · rw [List.flatten_append]
      simpa using hfl
    · intro r hrm
      rw [List.dropLast_concat] at hrm
      exact (hlen.1 r hrm).1
    · intro r hrm
      rcases List.mem_append.mp hrm with h | h
      · exact ⟨le_of_eq (hlen.1 r h).1, (hlen.1 r h).2⟩
      · have hr2 : r = (wrap_loop width l ([], [])).2 := by simpa using h
        subst hr2
        exact ⟨le_of_lt hlen.2, hr⟩

/-- Claim C4, amended.  With `keepRows` true, a visible Group concatenates
its children's rendered rows unchanged regardless of `width`.  With
`keepRows` false, provided every child renders at most one row (as leaf
buttons do), all buttons are flattened into a single row (empty when all
children render empty); with additionally a nonzero `width`, that row is
re-wrapped by `_wrap_kbd`, which for positive `width` partitions the buttons
into rows of exactly `width` buttons with only the final row possibly
shorter; the concrete 5-leaf-button, width-2 group renders rows of sizes
[2, 2, 1].  The amendment, forced by the counterexample: when the first
nonempty-rendering child renders more than one row, its rows beyond the
first survive flattening (later children are merged into its first row
only), and width-wrapping keeps just that first row, discarding the rest. -/
theorem claim_C4_theorem {D : Type} (dta : D) (wG : Option (D → Bool))
    (bs : List (Keyboard D)) (rs : List (List (List RBtn))) (width : Int)
    (hg : is_when wG dta = true) (hbs : renderAll dta bs = .ok rs) :
    (∀ wd : Int, render_kbd dta (.group wG bs true wd) = .ok rs.flatten) ∧
    ((∀ r ∈ rs, r.length ≤ 1) →
      render_kbd dta (.group wG bs false 0) =
        .ok (if rs.flatten = [] then [] else [rs.flatten.flatten])) ∧
    ((∀ r ∈ rs, r.length ≤ 1) → width ≠ 0 → rs.flatten ≠ [] →
      render_kbd dta (.group wG bs false width) = .ok (wrap_kbd width rs.flatten.flatten)) ∧
    (1 ≤ width → ∀ l : List RBtn, (wrap_kbd width l).flatten = l ∧
      (∀ r ∈ (wrap_kbd width l).dropLast, (r.length : Int) = width) ∧
      (∀ r ∈ wrap_kbd width l, (r.length : Int) ≤ width ∧ r ≠ [])) ∧
    render_kbd () kbFive =
      .ok [[RBtn.btn "1" "1", RBtn.btn "2" "2"],
           [RBtn.btn "3" "3", RBtn.btn "4" "4"], [RBtn.btn "5" "5"]] := by
  refine ⟨?_, ?_, ?_, fun hw l => wrap_kbd_spec width hw l, by decide⟩
  · intro wd
    simp only [render_kbd]
    rw [hg]
    simp only [if_true]
    rw [render_children_keep dta bs rs [] hbs]
    simp
  · intro hrows
    simp only [render_kbd]
    rw [hg]
    simp only [if_true]
    rw [render_children_flat_empty dta bs rs hbs hrows]
    simp
  · intro hrows hw hne
    simp only [render_kbd]
    rw [hg]
    simp only [if_true]
    rw [render_children_flat_empty dta bs rs hbs hrows]
    rw [if_neg hne]
    simp only [Bool.not_false, Bool.true_and]
    rw [if_pos (by simpa using hw)]

/-- Claim C4 counterexample: a flattening group whose first child renders
two rows does not produce a single row list (width 0), and with width 2 the
re-wrap drops the second row: only 2 of the 3 visible buttons survive. -/
theorem claim_C4_counterexample :
    renderAll () [kbInner, tbU "c"] =
      .ok [[[RBtn.btn "a" "a"], [RBtn.btn "b" "b"]], [[RBtn.btn "c" "c"]]] ∧
    render_kbd () kbBadFlat =
      .ok [[RBtn.btn "a" "a", RBtn.btn "c" "c"], [RBtn.btn "b" "b"]] ∧
    [[RBtn.btn "a" "a", RBtn.btn "c" "c"], [RBtn.btn "b" "b"]].length ≠ 1 ∧
    render_kbd () kbBadWrap = .ok [[RBtn.btn "a" "a", RBtn.btn "c" "c"]] ∧
    [[RBtn.btn "a" "a", RBtn.btn "c" "c"]].flatten.length ≠ 3 := by
  exact ⟨by decide, by decide, by decide, by decide, by decide⟩

/-- Claim C4 witness: the amended theorem applied to five leaf buttons with
width 2. -/
theorem claim_C4_witness :
    renderAll () [tbU "1", tbU "2", tbU "3", tbU "4", tbU "5"] =
      .ok [[[RBtn.btn "1" "1"]], [[RBtn.btn "2" "2"]], [[RBtn.btn "3" "3"]],
           [[RBtn.btn "4" "4"]], [[RBtn.btn "5" "5"]]] ∧
    render_kbd () kbFive =
      .ok [[RBtn.btn "1" "1", RBtn.btn "2" "2"],
           [RBtn.btn "3" "3", RBtn.btn "4" "4"], [RBtn.btn "5" "5"]] ∧
    render_kbd () (.group none [tbU "1", tbU "2", tbU "3", tbU "4", tbU "5"] true 2) =
      .ok [[RBtn.btn "1" "1"], [RBtn.btn "2" "2"], [RBtn.btn "3" "3"],
           [RBtn.btn "4" "4"], [RBtn.btn "5" "5"]] ∧
    (wrap_kbd 2 [RBtn.btn "1" "1", RBtn.btn "2" "2", RBtn.btn "3" "3",
      RBtn.btn "4" "4", RBtn.btn "5" "5"]).flatten =
      [RBtn.btn "1" "1", RBtn.btn "2" "2", RBtn.btn "3" "3",
       RBtn.btn "4" "4", RBtn.btn "5" "5"] := by
  have h := claim_C4_theorem () none [tbU "1", tbU "2", tbU "3", tbU "4", tbU "5"]
    [[[RBtn.btn "1" "1"]], [[RBtn.btn "2" "2"]], [[RBtn.btn "3" "3"]],
     [[RBtn.btn "4" "4"]], [[RBtn.btn "5" "5"]]] 2 rfl (by decide)
  refine ⟨by decide, h.2.2.2.2, ?_, (h.2.2.2.1 (by omega) _).1⟩
  exact h.1 2

/-- Claim C5, amended.  A keyboard node whose visibility gate evaluates
false renders an empty row list, and a visible Group all of whose children
render empty also renders empty when `keepRows` is set or `width` is zero.
The amendment, forced by the counterexample: with `keepRows` false and a
nonzero `width`, the `kbd[0]` lookup in `Group._render_kbd` raises
`IndexError` instead of returning the empty list. -/
theorem claim_C5_theorem {D : Type} (dta : D) (n : Keyboard D) (wG : Option (D → Bool))
    (bs : List (Keyboard D)) (keep : Bool) (width : Int)
    (hbs : ∀ b ∈ bs, render_kbd dta b = .ok []) :
    (is_when n.whenCond dta = false → render_kbd dta n = .ok []) ∧
    (is_when wG dta = true → (keep = true ∨ width = 0) →
      render_kbd dta (.group wG bs keep width) = .ok []) ∧
    (is_when wG dta = true → keep = false → width ≠ 0 →
      render_kbd dta (.group wG bs keep width) = .error .indexError) := by
  refine ⟨?_, ?_, ?_⟩
  · intro hn
    cases n with
    | button w t c =>
      simp only [Keyboard.whenCond] at hn
      simp [render_kbd, hn]
    | uri w t u =>
      simp only [Keyboard.whenCond] at hn
      simp [render_kbd, hn]
    | group w b k wd =>
      simp only [Keyboard.whenCond] at hn
      simp [render_kbd, hn]
  · intro hg hkw
    simp only [render_kbd]
    rw [hg]
    simp only [if_true]
    rw [render_children_empty dta keep bs hbs]
    rcases hkw with hk | hwd
    · subst hk
      simp
    · subst hwd
      simp
  · intro hg hk hwd
    subst hk
    simp only [render_kbd]
    rw [hg]
    simp only [if_true]
    rw [render_children_empty dta false bs hbs]
    simp only [Bool.not_false, Bool.true_and]
    rw [if_pos (by simpa using hwd)]

/-- Claim C5 counterexample: a flattening group of positive width whose only
child renders empty raises `IndexError` instead of rendering empty. -/
theorem claim_C5_counterexample :
    render_kbd () kbEmptyWrap = .error .indexError ∧
    (Except.error .indexError : Except PyErr (List (List RBtn))) ≠ .ok [] := by
  exact ⟨by decide, by decide⟩

/-- Claim C5 witness: the amended theorem applied to an always-hidden button
under the three group configurations. -/
theorem claim_C5_witness :
    is_when kbHidden.whenCond () = false ∧
    render_kbd () kbHidden = .ok [] ∧
    render_kbd () (.group none [kbHidden] true 2) = .ok [] ∧
    render_kbd () (.group none [kbHidden] false 0) = .ok [] ∧
    render_kbd () (.group none [kbHidden] false 2) = .error .indexError := by
  have h1 := claim_C5_theorem () kbHidden none [kbHidden] true 2 (by decide)
  have h2 := claim_C5_theorem () kbHidden none [kbHidden] false 0 (by decide)
  have h3 := claim_C5_theorem () kbHidden none [kbHidden] false 2 (by decide)
  exact ⟨by decide, h1.1 rfl, h1.2.1 rfl (Or.inl rfl), h2.2.1 rfl (Or.inr rfl),
    h3.2.2 rfl rfl (by decide)⟩
